import Mathlib

/- Verification of the bounded stream-compression adapter in
   src/daemon/https/tls/gnutls_compress_int.c (mhd_gtls_comp_init,
   mhd_gtls_compress, mhd_gtls_decompress).

   The underlying zlib engine is an external collaborator; it is modelled
   abstractly as a `ZEngine`: one transform call consumes some prefix of the
   remaining input and writes some bytes into the available output space,
   returning a status (`Z_OK`, `Z_BUF_ERROR`, or anything else).  The
   allocator is modelled by an oracle `Nat → Bool` deciding whether the
   i-th allocation of a call succeeds.  Results carry, besides the C return
   value and the out-parameter, two ghost observations: `live`, the number
   of buffers allocated by the call and neither freed nor handed to the
   caller through the out-parameter (plus the returned buffer itself when
   the call succeeds), and `cap`, the largest buffer capacity successfully
   allocated during the call. -/

/-- Status vocabulary of the underlying engine as consumed by the adapter:
the C code only distinguishes `Z_OK`, `Z_BUF_ERROR` and "anything else". -/
inductive ZStatus where
  | ok
  | bufError
  | other
  deriving DecidableEq

/-- Result of one engine transform call (`deflate`/`inflate` with
`Z_SYNC_FLUSH`): the status, how many input bytes were consumed
(`avail_in` decreases by this), the bytes written to the output cursor
(`avail_out` decreases by their number), and the advanced stream state. -/
structure ZStep (σ : Type) where
  status : ZStatus
  consumed : Nat
  output : List Nat
  state : σ
  deriving DecidableEq

/-- Modelled from the spec: the underlying engine contract — an opaque
stream transform.  A call is given the remaining input and the available
output space; it cannot consume more input than it was given nor produce
more output than the space it was offered. -/
structure ZEngine (σ : Type) where
  step : σ → List Nat → Nat → ZStep σ
  consumed_le : ∀ s inp avail, (step s inp avail).consumed ≤ inp.length
  output_le : ∀ s inp avail, (step s inp avail).output.length ≤ avail

/-- enum MHD_GNUTLS_CompressionMethod (the two values this file handles). -/
inductive CompressionMethod where
  | MHD_GNUTLS_COMP_NULL
  | MHD_GNUTLS_COMP_DEFLATE
  deriving DecidableEq

/-- comp_hd_t: algorithm tag plus, for DEFLATE, the engine stream state
(the `handle->handle` z_stream); the NULL method carries no engine state. -/
inductive comp_hd_t (σ : Type) where
  | nullComp
  | deflate (zstate : σ)
  deriving DecidableEq

/-- The engine state held by a (possibly absent) handle. -/
def hstOf {σ : Type} : Option (comp_hd_t σ) → Option σ
  | none => none
  | some comp_hd_t.nullComp => none
  | some (comp_hd_t.deflate s) => some s

/-- Modelled from the spec: `EXTRA_COMP_SIZE`, the small fixed slack
constant of the upfront decompression bound check; its definition lives in
a header outside src/ (the claims do not depend on its exact value). -/
def EXTRA_COMP_SIZE : Nat := 2048

/-- Return value of the two transforms: a non-negative length on success,
or one of the gnutls error codes the file can return.  `modelFuelExhausted`
is an artifact of the fuel-indexed loop model, not a code path. -/
inductive CRet where
  | size (n : Nat)
  | GNUTLS_E_INTERNAL_ERROR
  | GNUTLS_E_MEMORY_ERROR
  | GNUTLS_E_COMPRESSION_FAILED
  | GNUTLS_E_DECOMPRESSION_FAILED
  | modelFuelExhausted
  deriving DecidableEq

/-- Result of mhd_gtls_comp_init: the constructed handle (or `none` on
failure) and the ghost count of live allocations (on success these are
owned by the returned handle: the handle struct, plus the z_stream for
DEFLATE). -/
structure InitResult (σ : Type) where
  hd : Option (comp_hd_t σ)
  live : Nat
  deriving DecidableEq

/-- mhd_gtls_comp_init: allocate the handle struct (allocation 0); for
DEFLATE also allocate the z_stream (allocation 1) and initialize the
engine for direction `d` (`einit d = none` models a failing
inflateInit2/deflateInit2); every failure path frees what was allocated. -/
def mhd_gtls_comp_init {σ : Type} (method : CompressionMethod) (d : Bool)
    (einit : Bool → Option σ) (oracle : Nat → Bool) : InitResult σ :=
  if oracle 0 = false then ⟨none, 0⟩
  else
    match method with
    | CompressionMethod.MHD_GNUTLS_COMP_DEFLATE =>
      if oracle 1 = false then ⟨none, 0⟩
      else
        match einit d with
        | none => ⟨none, 0⟩
        | some s0 => ⟨some (comp_hd_t.deflate s0), 2⟩
    | CompressionMethod.MHD_GNUTLS_COMP_NULL => ⟨some comp_hd_t.nullComp, 1⟩

/-- Result of mhd_gtls_compress: C return value, the final value of the
out-parameter `*compressed`, the handle's engine state after the call,
and the ghost `live`/`cap` observations. -/
structure CompressResult (σ : Type) where
  ret : CRet
  compressed : Option (List Nat)
  zstate : Option σ
  live : Nat
  cap : Nat
  deriving DecidableEq

/-- mhd_gtls_compress: NULL handle or non-DEFLATE algorithm is an internal
error; otherwise allocate `plain_size + plain_size + 10` bytes (allocation
0), run one `deflate (…, Z_SYNC_FLUSH)` over the whole input, fail (freeing
the buffer and nulling `*compressed`) unless the status is `Z_OK` with all
input consumed (`avail_in == 0`, i.e. nothing of `plain` remains), then
fail likewise if `compressed_size = size - avail_out` (the bytes written)
exceeds `max_comp_size`. -/
def mhd_gtls_compress {σ : Type} (E : ZEngine σ) (handle : Option (comp_hd_t σ))
    (plain : List Nat) (max_comp_size : Nat) (oracle : Nat → Bool) :
    CompressResult σ :=
  match handle with
  | none => ⟨CRet.GNUTLS_E_INTERNAL_ERROR, none, none, 0, 0⟩
  | some comp_hd_t.nullComp => ⟨CRet.GNUTLS_E_INTERNAL_ERROR, none, none, 0, 0⟩
  | some (comp_hd_t.deflate st) =>
    if oracle 0 = false then ⟨CRet.GNUTLS_E_MEMORY_ERROR, none, some st, 0, 0⟩
    else
      let r := E.step st plain (plain.length + plain.length + 10)
      if r.status ≠ ZStatus.ok ∨ plain.drop r.consumed ≠ [] then
        ⟨CRet.GNUTLS_E_COMPRESSION_FAILED, none, some r.state, 0,
          plain.length + plain.length + 10⟩
      else if max_comp_size < r.output.length then
        ⟨CRet.GNUTLS_E_COMPRESSION_FAILED, none, some r.state, 0,
          plain.length + plain.length + 10⟩
      else
        ⟨CRet.size r.output.length, some r.output, some r.state, 1,
          plain.length + plain.length + 10⟩

/-- Outcome of the decompress growth loop: allocation failure inside the
loop (realloc_fast freed the old buffer and returned NULL), model fuel
exhaustion, or loop exit with the final status, final `out_size`, final
write position `cur_pos` (= out_size - avail_out), buffer contents,
engine state and peak allocated capacity. -/
inductive LoopOut (σ : Type) where
  | memFail (state : σ) (cap : Nat)
  | fuelOut (state : σ) (cap : Nat)
  | done (status : ZStatus) (out_size : Nat) (cur_pos : Nat) (buf : List Nat)
      (state : σ) (cap : Nat)

/-- The do/while growth loop of mhd_gtls_decompress.  Each iteration grows
`out_size` by 512, reallocates the buffer to the new size (allocation
`aidx`; `mhd_gtls_realloc_fast` — modelled from the spec, its source lives
outside src/ — frees the old buffer and yields NULL on failure), calls
`inflate (…, Z_SYNC_FLUSH)` on the remaining input with
`avail_out = out_size - cur_pos`, advances `cur_pos` by the bytes written,
and continues while (`Z_BUF_ERROR` and `avail_out == 0` and
`out_size < max_record_size`) or (`Z_OK` and `avail_in != 0`). -/
def inflateLoop {σ : Type} (E : ZEngine σ) (max_record_size : Nat)
    (oracle : Nat → Bool) :
    Nat → σ → List Nat → Nat → Nat → List Nat → Nat → Nat → LoopOut σ
  | 0, st, _, _, _, _, _, cap => LoopOut.fuelOut st cap
  | fuel + 1, st, input, out_size, cur_pos, buf, aidx, cap =>
    let os := out_size + 512
    if oracle aidx = false then LoopOut.memFail st cap
    else
      let r := E.step st input (os - cur_pos)
      let input2 := input.drop r.consumed
      let cur2 := cur_pos + r.output.length
      if (r.status = ZStatus.bufError ∧ os - cur2 = 0 ∧ os < max_record_size) ∨
          (r.status = ZStatus.ok ∧ input2 ≠ []) then
        inflateLoop E max_record_size oracle fuel r.state input2 os cur2
          (buf ++ r.output) (aidx + 1) (Nat.max cap os)
      else
        LoopOut.done r.status os cur2 (buf ++ r.output) r.state (Nat.max cap os)

/-- Result of mhd_gtls_decompress: C return value, final value of the
out-parameter `*plain`, the handle's engine state after the call, ghost
`live`/`cap` observations, and the engine status the growth loop ended
with (`none` when the loop was never completed). -/
structure DecompressResult (σ : Type) where
  ret : CRet
  plain : Option (List Nat)
  zstate : Option σ
  live : Nat
  cap : Nat
  finalStatus : Option ZStatus
  deriving DecidableEq

/-- Fuel that the totality analysis shows is sufficient for the growth
loop whenever the engine makes input progress on `Z_OK` (each continued
iteration strictly decreases
`avail_in * (max_record_size + 513) + (max_record_size - out_size)`). -/
def decompFuel (compressed_size max_record_size : Nat) : Nat :=
  compressed_size * (max_record_size + 513) + max_record_size + 2

/-- mhd_gtls_decompress: reject upfront (before even looking at the
handle) when `compressed_size > max_record_size + EXTRA_COMP_SIZE`; NULL
handle or non-DEFLATE algorithm is an internal error; otherwise set
`*plain = NULL`, start from `out_size = compressed_size + compressed_size`
and `cur_pos = 0`, run the growth loop, fail (freeing and nulling
`*plain`) unless the loop ended with `Z_OK`, then fail likewise if
`plain_size = out_size - avail_out` exceeds `max_record_size`. -/
def mhd_gtls_decompress {σ : Type} (E : ZEngine σ) (handle : Option (comp_hd_t σ))
    (compressed : List Nat) (max_record_size : Nat) (oracle : Nat → Bool) :
    DecompressResult σ :=
  if max_record_size + EXTRA_COMP_SIZE < compressed.length then
    ⟨CRet.GNUTLS_E_DECOMPRESSION_FAILED, none, hstOf handle, 0, 0, none⟩
  else
    match handle with
    | none => ⟨CRet.GNUTLS_E_INTERNAL_ERROR, none, none, 0, 0, none⟩
    | some comp_hd_t.nullComp => ⟨CRet.GNUTLS_E_INTERNAL_ERROR, none, none, 0, 0, none⟩
    | some (comp_hd_t.deflate st) =>
      match inflateLoop E max_record_size oracle
          (decompFuel compressed.length max_record_size) st compressed
          (compressed.length + compressed.length) 0 [] 0 0 with
      | LoopOut.memFail st2 cap =>
        ⟨CRet.GNUTLS_E_MEMORY_ERROR, none, some st2, 0, cap, none⟩
      | LoopOut.fuelOut st2 cap =>
        ⟨CRet.modelFuelExhausted, none, some st2, 0, cap, none⟩
      | LoopOut.done status os cur buf st2 cap =>
        if status ≠ ZStatus.ok then
          ⟨CRet.GNUTLS_E_DECOMPRESSION_FAILED, none, some st2, 0, cap, some status⟩
        else if max_record_size < os - (os - cur) then
          ⟨CRet.GNUTLS_E_DECOMPRESSION_FAILED, none, some st2, 0, cap, some status⟩
        else
          ⟨CRet.size (os - (os - cur)), some buf, some st2, 1, cap, some status⟩

/-- Peak allocated capacity of a loop outcome. -/
def LoopOut.capOf {σ : Type} : LoopOut σ → Nat
  | LoopOut.memFail _ cap => cap
  | LoopOut.fuelOut _ cap => cap
  | LoopOut.done _ _ _ _ _ cap => cap

/-- A simple concrete engine used to witness the theorems: it copies its
input to the output when it fits and reports `Z_BUF_ERROR` otherwise. -/
def idEngine : ZEngine Unit where
  step _ inp avail :=
    if inp.length ≤ avail then ⟨ZStatus.ok, inp.length, inp, ()⟩
    else ⟨ZStatus.bufError, 0, [], ()⟩
  consumed_le := by
    intro s inp avail
    by_cases h : inp.length ≤ avail <;> simp [h]
  output_le := by
    intro s inp avail
    by_cases h : inp.length ≤ avail <;> simp [h]

/-- A concrete engine that never makes progress, used to witness the
failure paths. -/
def stuckEngine : ZEngine Unit where
  step _ _ _ := ⟨ZStatus.bufError, 0, [], ()⟩
  consumed_le := by intro s inp avail; simp
  output_le := by intro s inp avail; simp

/-- Modelled from the spec: one call of a deflate-family decoder of the
compressed record `c` back to the plaintext `P` (the engine itself lives
outside src/).  The state is (input bytes consumed so far, output bytes
emitted so far); a call emits the next pending plaintext bytes up to the
offered space and consumes input in step with the emission, following the
monotone schedule `g` (all remaining input is consumed when the output is
complete); it reports `Z_OK` whenever it made progress. -/
def schedStep (P c : List Nat) (g : Nat → Nat) (s : Nat × Nat)
    (inp : List Nat) (avail : Nat) : ZStep (Nat × Nat) :=
  let out := (P.drop s.2).take avail
  let k2 := s.2 + out.length
  let target := if k2 = P.length then c.length else g k2
  let consumed := min inp.length (target - s.1)
  ⟨if out.length = 0 ∧ consumed = 0 then ZStatus.bufError else ZStatus.ok,
    consumed, out, (s.1 + consumed, k2)⟩

/-- The decoder of `schedStep`, packaged as an engine. -/
def schedDecoder (P c : List Nat) (g : Nat → Nat) : ZEngine (Nat × Nat) where
  step := schedStep P c g
  consumed_le := by
    intro s inp avail
    exact Nat.min_le_left _ _
  output_le := by
    intro s inp avail
    simp [schedStep]


/-- On compress success the call went through the DEFLATE branch, the
returned length is the engine's output length and passed the post-check. -/
theorem compress_success_spec {σ : Type} (E : ZEngine σ) (h : Option (comp_hd_t σ))
    (p : List Nat) (maxC : Nat) (orc : Nat → Bool) (n : Nat)
    (hr : (mhd_gtls_compress E h p maxC orc).ret = CRet.size n) :
    ∃ st, h = some (comp_hd_t.deflate st) ∧ orc 0 = true ∧
      (E.step st p (p.length + p.length + 10)).status = ZStatus.ok ∧
      p.drop (E.step st p (p.length + p.length + 10)).consumed = [] ∧
      n = (E.step st p (p.length + p.length + 10)).output.length ∧ n ≤ maxC ∧
      (mhd_gtls_compress E h p maxC orc).compressed =
        some (E.step st p (p.length + p.length + 10)).output := by
  match h with
  | none => simp [mhd_gtls_compress] at hr
  | some comp_hd_t.nullComp => simp [mhd_gtls_compress] at hr
  | some (comp_hd_t.deflate st) =>
    refine ⟨st, rfl, ?_⟩
    cases ho : orc 0 with
    | false => simp [mhd_gtls_compress, ho] at hr
    | true =>
      by_cases hst : (E.step st p (p.length + p.length + 10)).status = ZStatus.ok
      · by_cases hcons : p.drop (E.step st p (p.length + p.length + 10)).consumed = []
        · by_cases hpost : maxC < (E.step st p (p.length + p.length + 10)).output.length
          · simp [mhd_gtls_compress, ho, hst, hcons, hpost] at hr
          · have hn : n = (E.step st p (p.length + p.length + 10)).output.length := by
              simp [mhd_gtls_compress, ho, hst, hcons, hpost] at hr
              omega
            refine ⟨rfl, hst, hcons, hn, by omega, ?_⟩
            simp [mhd_gtls_compress, ho, hst, hcons, hpost]
        · simp [mhd_gtls_compress, ho, hst, hcons] at hr
      · simp [mhd_gtls_compress, ho, hst] at hr

/-- The compress out-parameter is populated only on success, and then the
returned buffer respects `max_comp_size`. -/
theorem compress_compressed_spec {σ : Type} (E : ZEngine σ) (h : Option (comp_hd_t σ))
    (p : List Nat) (maxC : Nat) (orc : Nat → Bool) (c : List Nat)
    (hr : (mhd_gtls_compress E h p maxC orc).compressed = some c) :
    c.length ≤ maxC ∧ (mhd_gtls_compress E h p maxC orc).ret = CRet.size c.length := by
  match h with
  | none => simp [mhd_gtls_compress] at hr
  | some comp_hd_t.nullComp => simp [mhd_gtls_compress] at hr
  | some (comp_hd_t.deflate st) =>
    cases ho : orc 0 with
    | false => simp [mhd_gtls_compress, ho] at hr
    | true =>
      by_cases hst : (E.step st p (p.length + p.length + 10)).status = ZStatus.ok
      · by_cases hcons : p.drop (E.step st p (p.length + p.length + 10)).consumed = []
        · by_cases hpost : maxC < (E.step st p (p.length + p.length + 10)).output.length
          · simp [mhd_gtls_compress, ho, hst, hcons, hpost] at hr
          · have hc : c = (E.step st p (p.length + p.length + 10)).output := by
              simp [mhd_gtls_compress, ho, hst, hcons, hpost] at hr
              exact hr.symm
            subst hc
            constructor
            · omega
            · simp [mhd_gtls_compress, ho, hst, hcons, hpost]
        · simp [mhd_gtls_compress, ho, hst, hcons] at hr
      · simp [mhd_gtls_compress, ho, hst] at hr

/-- On decompress success the returned length passed the final post-check
against `max_record_size`. -/
theorem decompress_size_le {σ : Type} (E : ZEngine σ) (h : Option (comp_hd_t σ))
    (c : List Nat) (maxD : Nat) (orc : Nat → Bool) (m : Nat)
    (hr : (mhd_gtls_decompress E h c maxD orc).ret = CRet.size m) : m ≤ maxD := by
  by_cases hov : maxD + EXTRA_COMP_SIZE < c.length
  · simp [mhd_gtls_decompress, hov] at hr
  · match h with
    | none => simp [mhd_gtls_decompress, hov] at hr
    | some comp_hd_t.nullComp => simp [mhd_gtls_decompress, hov] at hr
    | some (comp_hd_t.deflate st) =>
      rcases hL : inflateLoop E maxD orc (decompFuel c.length maxD) st c
          (c.length + c.length) 0 [] 0 0 with
        ⟨st2, cap⟩ | ⟨st2, cap⟩ | ⟨status, os, cur, buf, st2, cap⟩
      · simp [mhd_gtls_decompress, hov, hL] at hr
      · simp [mhd_gtls_decompress, hov, hL] at hr
      · by_cases hstat : status = ZStatus.ok
        · subst hstat
          by_cases hpost : maxD < os - (os - cur)
          · simp [mhd_gtls_decompress, hov, hL, hpost] at hr
          · simp [mhd_gtls_decompress, hov, hL, hpost] at hr
            omega
        · simp [mhd_gtls_decompress, hov, hL, hstat] at hr

/-- C1: for every call to compress and every call to decompress that
returns success (a non-negative length), the returned length is at most
the caller-supplied maximum output size; the post-checks turn an
oversized result into a CompressionFailed / DecompressionFailed failure
instead of truncating. -/
theorem C1_bound_enforcement {σ1 σ2 : Type} (E1 : ZEngine σ1) (E2 : ZEngine σ2)
    (h1 : Option (comp_hd_t σ1)) (h2 : Option (comp_hd_t σ2))
    (p c : List Nat) (maxC maxD : Nat) (or1 or2 : Nat → Bool) (n m : Nat)
    (hc : (mhd_gtls_compress E1 h1 p maxC or1).ret = CRet.size n)
    (hd : (mhd_gtls_decompress E2 h2 c maxD or2).ret = CRet.size m) :
    n ≤ maxC ∧ m ≤ maxD := by
  obtain ⟨st, _, _, _, _, _, hle, _⟩ := compress_success_spec E1 h1 p maxC or1 n hc
  exact ⟨hle, decompress_size_le E2 h2 c maxD or2 m hd⟩

theorem C1_bound_enforcement_witness : 2 ≤ 10 ∧ 2 ≤ 10 :=
  C1_bound_enforcement idEngine idEngine
    (some (comp_hd_t.deflate ())) (some (comp_hd_t.deflate ()))
    [5, 6] [5, 6] 10 10 (fun _ => true) (fun _ => true) 2 2 (by decide) (by decide)

/-- C3: a compressed input longer than `max_record_size + EXTRA_COMP_SIZE`
is rejected upfront with DecompressionFailed; the engine is never invoked
(the result does not depend on the engine, nor on the allocator) and the
handle's streaming state is returned unchanged. -/
theorem C3_upfront_reject {σ : Type} (E : ZEngine σ) (h : Option (comp_hd_t σ))
    (c : List Nat) (maxD : Nat) (orc : Nat → Bool)
    (hover : maxD + EXTRA_COMP_SIZE < c.length) :
    (mhd_gtls_decompress E h c maxD orc).ret = CRet.GNUTLS_E_DECOMPRESSION_FAILED ∧
    (mhd_gtls_decompress E h c maxD orc).zstate = hstOf h ∧
    (∀ E2 : ZEngine σ, mhd_gtls_decompress E2 h c maxD orc =
      mhd_gtls_decompress E h c maxD orc) ∧
    (∀ orc2 : Nat → Bool, mhd_gtls_decompress E h c maxD orc2 =
      mhd_gtls_decompress E h c maxD orc) := by
  refine ⟨?_, ?_, ?_, ?_⟩
  · simp [mhd_gtls_decompress, hover]
  · simp [mhd_gtls_decompress, hover]
  · intro E2
    simp [mhd_gtls_decompress, hover]
  · intro orc2
    simp [mhd_gtls_decompress, hover]

theorem C3_upfront_reject_witness :
    (mhd_gtls_decompress idEngine (some (comp_hd_t.deflate ()))
        (List.replicate 2054 0) 5 (fun _ => true)).ret =
      CRet.GNUTLS_E_DECOMPRESSION_FAILED ∧
    (mhd_gtls_decompress idEngine (some (comp_hd_t.deflate ()))
        (List.replicate 2054 0) 5 (fun _ => true)).zstate =
      hstOf (some (comp_hd_t.deflate ())) ∧
    (∀ E2 : ZEngine Unit, mhd_gtls_decompress E2 (some (comp_hd_t.deflate ()))
        (List.replicate 2054 0) 5 (fun _ => true) =
      mhd_gtls_decompress idEngine (some (comp_hd_t.deflate ()))
        (List.replicate 2054 0) 5 (fun _ => true)) ∧
    (∀ orc2 : Nat → Bool, mhd_gtls_decompress idEngine (some (comp_hd_t.deflate ()))
        (List.replicate 2054 0) 5 orc2 =
      mhd_gtls_decompress idEngine (some (comp_hd_t.deflate ()))
        (List.replicate 2054 0) 5 (fun _ => true)) :=
  C3_upfront_reject idEngine (some (comp_hd_t.deflate ())) (List.replicate 2054 0) 5
    (fun _ => true) (by rw [List.length_replicate]; decide)

/-- C10: in decompress the upfront size-bound check precedes the
handle-validity check: an oversized input yields DecompressionFailed for
every handle, null included, while a null handle yields the internal
error only when the input passes the size bound. -/
theorem C10_check_order {σ : Type} (E : ZEngine σ) (h : Option (comp_hd_t σ))
    (c : List Nat) (maxD : Nat) (orc : Nat → Bool) :
    (maxD + EXTRA_COMP_SIZE < c.length →
      (mhd_gtls_decompress E h c maxD orc).ret = CRet.GNUTLS_E_DECOMPRESSION_FAILED) ∧
    (h = none → c.length ≤ maxD + EXTRA_COMP_SIZE →
      (mhd_gtls_decompress E h c maxD orc).ret = CRet.GNUTLS_E_INTERNAL_ERROR) := by
  constructor
  · intro hover
    simp [mhd_gtls_decompress, hover]
  · intro he hle
    subst he
    simp [mhd_gtls_decompress, Nat.not_lt.mpr hle]

theorem C10_check_order_witness :
    (mhd_gtls_decompress idEngine (none : Option (comp_hd_t Unit))
        (List.replicate 2054 0) 5 (fun _ => true)).ret =
      CRet.GNUTLS_E_DECOMPRESSION_FAILED ∧
    (mhd_gtls_decompress idEngine (none : Option (comp_hd_t Unit))
        [1] 5 (fun _ => true)).ret = CRet.GNUTLS_E_INTERNAL_ERROR :=
  ⟨(C10_check_order idEngine none (List.replicate 2054 0) 5 (fun _ => true)).1
      (by rw [List.length_replicate]; decide),
    (C10_check_order idEngine none [1] 5 (fun _ => true)).2 rfl (by decide)⟩

/-- C8: with a valid deflate handle and a successful allocation, compress
allocates its output buffer with capacity exactly `2 * n + 10` for input
length `n`, and hence every successful compressed length is at most
`2 * n + 10`. -/
theorem C8_compress_allocation {σ : Type} (E : ZEngine σ) (st : σ) (p : List Nat)
    (maxC : Nat) (orc : Nat → Bool) (horc : orc 0 = true) :
    (mhd_gtls_compress E (some (comp_hd_t.deflate st)) p maxC orc).cap =
      2 * p.length + 10 ∧
    ∀ n, (mhd_gtls_compress E (some (comp_hd_t.deflate st)) p maxC orc).ret =
        CRet.size n → n ≤ 2 * p.length + 10 := by
  constructor
  · by_cases hst : (E.step st p (p.length + p.length + 10)).status = ZStatus.ok
    · by_cases hcons : p.drop (E.step st p (p.length + p.length + 10)).consumed = []
      · by_cases hpost : maxC < (E.step st p (p.length + p.length + 10)).output.length
        · simp [mhd_gtls_compress, horc, hst, hcons, hpost]
          omega
        · simp [mhd_gtls_compress, horc, hst, hcons, hpost]
          omega
      · simp [mhd_gtls_compress, horc, hst, hcons]
        omega
    · simp [mhd_gtls_compress, horc, hst]
      omega
  · intro n hn
    obtain ⟨st2, hst2, _, _, _, hn2, _, _⟩ :=
      compress_success_spec E (some (comp_hd_t.deflate st)) p maxC orc n hn
    have hsame : st = st2 := by
      simpa using hst2
    subst hsame
    have := E.output_le st p (p.length + p.length + 10)
    omega

theorem C8_compress_allocation_witness :
    (mhd_gtls_compress idEngine (some (comp_hd_t.deflate ())) [1, 2, 3] 100
      (fun _ => true)).cap = 16 ∧ (3 : Nat) ≤ 16 :=
  ⟨(C8_compress_allocation idEngine () [1, 2, 3] 100 (fun _ => true) rfl).1,
    (C8_compress_allocation idEngine () [1, 2, 3] 100 (fun _ => true) rfl).2 3 (by decide)⟩

/-- C5 counterexample: an engine flush that reports OK and consumes all
input does not suffice for compress to succeed — with `max_comp_size = 0`
the post-check still fails the call, so "succeeds if and only if the
engine reports OK with zero unconsumed input" is false as stated. -/
theorem C5_iff_cex :
    (idEngine.step () [1] 12).status = ZStatus.ok ∧
    (idEngine.step () [1] 12).consumed = 1 ∧
    (mhd_gtls_compress idEngine (some (comp_hd_t.deflate ())) [1] 0
      (fun _ => true)).ret = CRet.GNUTLS_E_COMPRESSION_FAILED := by
  decide

/-- C5 amended: whenever the single engine flush reports a status other
than OK or leaves unconsumed input, compress fails with CompressionFailed,
releases the buffer and nulls the output pointer; and (given a successful
allocation) the call succeeds exactly when the flush reports OK, consumes
all input, and the resulting length also passes the `max_comp_size`
post-check. -/
theorem C5_engine_flush_check {σ : Type} (E : ZEngine σ) (st : σ) (p : List Nat)
    (maxC : Nat) (orc : Nat → Bool) (horc : orc 0 = true) :
    ((E.step st p (p.length + p.length + 10)).status ≠ ZStatus.ok ∨
        p.drop (E.step st p (p.length + p.length + 10)).consumed ≠ [] →
      (mhd_gtls_compress E (some (comp_hd_t.deflate st)) p maxC orc).ret =
        CRet.GNUTLS_E_COMPRESSION_FAILED ∧
      (mhd_gtls_compress E (some (comp_hd_t.deflate st)) p maxC orc).compressed = none ∧
      (mhd_gtls_compress E (some (comp_hd_t.deflate st)) p maxC orc).live = 0) ∧
    ((mhd_gtls_compress E (some (comp_hd_t.deflate st)) p maxC orc).ret =
        CRet.size (E.step st p (p.length + p.length + 10)).output.length ↔
      (E.step st p (p.length + p.length + 10)).status = ZStatus.ok ∧
        p.drop (E.step st p (p.length + p.length + 10)).consumed = [] ∧
        (E.step st p (p.length + p.length + 10)).output.length ≤ maxC) := by
  constructor
  · intro hfail
    rcases hfail with hst | hcons
    · simp [mhd_gtls_compress, horc, hst]
    · by_cases hstat : (E.step st p (p.length + p.length + 10)).status = ZStatus.ok
      · simp [mhd_gtls_compress, horc, hstat, hcons]
      · simp [mhd_gtls_compress, horc, hstat]
  · by_cases hstat : (E.step st p (p.length + p.length + 10)).status = ZStatus.ok
    · by_cases hcons : p.drop (E.step st p (p.length + p.length + 10)).consumed = []
      · by_cases hpost : maxC < (E.step st p (p.length + p.length + 10)).output.length
        · simp only [mhd_gtls_compress, horc, hstat, hcons, hpost]
          simp [hstat, hcons]
          omega
        · simp only [mhd_gtls_compress, horc, hstat, hcons, hpost]
          simp [hstat, hcons]
          omega
      · simp [mhd_gtls_compress, horc, hstat, hcons]
    · simp [mhd_gtls_compress, horc, hstat]

theorem C5_engine_flush_check_witness :
    (mhd_gtls_compress idEngine (some (comp_hd_t.deflate ())) [1] 10
      (fun _ => true)).ret = CRet.size 1 :=
  (C5_engine_flush_check idEngine () [1] 10 (fun _ => true) rfl).2.mpr (by decide)

/-- C7: whenever the decompress growth loop exits with a final engine
status other than OK, the output buffer is released, the caller's output
pointer is nulled, and the call fails with DecompressionFailed; more
generally, on every non-success return the caller holds no buffer. -/
theorem C7_failure_cleanup {σ : Type} (E : ZEngine σ) (h : Option (comp_hd_t σ))
    (c : List Nat) (maxD : Nat) (orc : Nat → Bool) :
    (∀ s, (mhd_gtls_decompress E h c maxD orc).finalStatus = some s →
      s ≠ ZStatus.ok →
      (mhd_gtls_decompress E h c maxD orc).ret = CRet.GNUTLS_E_DECOMPRESSION_FAILED ∧
      (mhd_gtls_decompress E h c maxD orc).plain = none ∧
      (mhd_gtls_decompress E h c maxD orc).live = 0) ∧
    ((∀ n, (mhd_gtls_decompress E h c maxD orc).ret ≠ CRet.size n) →
      (mhd_gtls_decompress E h c maxD orc).plain = none ∧
      (mhd_gtls_decompress E h c maxD orc).live = 0) := by
  by_cases hov : maxD + EXTRA_COMP_SIZE < c.length
  · constructor
    · intro s hs
      simp [mhd_gtls_decompress, hov] at hs
    · intro _
      simp [mhd_gtls_decompress, hov]
  · match h with
    | none =>
      constructor
      · intro s hs
        simp [mhd_gtls_decompress, hov] at hs
      · intro _
        simp [mhd_gtls_decompress, hov]
    | some comp_hd_t.nullComp =>
      constructor
      · intro s hs
        simp [mhd_gtls_decompress, hov] at hs
      · intro _
        simp [mhd_gtls_decompress, hov]
    | some (comp_hd_t.deflate st) =>
      rcases hL : inflateLoop E maxD orc (decompFuel c.length maxD) st c
          (c.length + c.length) 0 [] 0 0 with
        ⟨st2, cap⟩ | ⟨st2, cap⟩ | ⟨status, os, cur, buf, st2, cap⟩
      · constructor
        · intro s hs
          simp [mhd_gtls_decompress, hov, hL] at hs
        · intro _
          simp [mhd_gtls_decompress, hov, hL]
      · constructor
        · intro s hs
          simp [mhd_gtls_decompress, hov, hL] at hs
        · intro _
          simp [mhd_gtls_decompress, hov, hL]
      · by_cases hstat : status = ZStatus.ok
        · subst hstat
          constructor
          · intro s hs hsne
            by_cases hpost : maxD < os - (os - cur)
            · simp [mhd_gtls_decompress, hov, hL, hpost] at hs
              exact absurd hs.symm hsne
            · simp [mhd_gtls_decompress, hov, hL, hpost] at hs
              exact absurd hs.symm hsne
          · intro hnos
            by_cases hpost : maxD < os - (os - cur)
            · simp [mhd_gtls_decompress, hov, hL, hpost]
            · exact absurd (by simp [mhd_gtls_decompress, hov, hL, hpost])
                (hnos (os - (os - cur)))
        · constructor
          · intro s hs hsne
            simp [mhd_gtls_decompress, hov, hL, hstat]
          · intro _
            simp [mhd_gtls_decompress, hov, hL, hstat]

theorem C7_failure_cleanup_witness :
    ((mhd_gtls_decompress stuckEngine (some (comp_hd_t.deflate ())) [1, 2] 10
        (fun _ => true)).ret = CRet.GNUTLS_E_DECOMPRESSION_FAILED ∧
      (mhd_gtls_decompress stuckEngine (some (comp_hd_t.deflate ())) [1, 2] 10
        (fun _ => true)).plain = none ∧
      (mhd_gtls_decompress stuckEngine (some (comp_hd_t.deflate ())) [1, 2] 10
        (fun _ => true)).live = 0) ∧
    ((mhd_gtls_decompress stuckEngine (some (comp_hd_t.deflate ())) [1, 2] 10
        (fun _ => true)).plain = none ∧
      (mhd_gtls_decompress stuckEngine (some (comp_hd_t.deflate ())) [1, 2] 10
        (fun _ => true)).live = 0) :=
  ⟨(C7_failure_cleanup stuckEngine (some (comp_hd_t.deflate ())) [1, 2] 10
      (fun _ => true)).1 ZStatus.bufError (by decide) (by decide),
    (C7_failure_cleanup stuckEngine (some (comp_hd_t.deflate ())) [1, 2] 10
      (fun _ => true)).2 (by
        intro n hn
        rw [(by decide : (mhd_gtls_decompress stuckEngine (some (comp_hd_t.deflate ()))
          [1, 2] 10 (fun _ => true)).ret = CRet.GNUTLS_E_DECOMPRESSION_FAILED)] at hn
        exact CRet.noConfusion hn)⟩

/-- C6: every allocation failure in init, compress, or decompress
(including a failed re-growth inside the decompress loop) yields a clean
OutOfMemory failure with no leaked buffer, and init never returns a
partially constructed handle: a returned DEFLATE handle always carries a
successfully initialized engine state. -/
theorem C6_allocation_failure_safety {σ1 σ2 σ3 : Type} (method : CompressionMethod)
    (d : Bool) (einit : Bool → Option σ1) (or1 : Nat → Bool)
    (E2 : ZEngine σ2) (h2 : Option (comp_hd_t σ2)) (p : List Nat) (maxC : Nat)
    (or2 : Nat → Bool)
    (E3 : ZEngine σ3) (h3 : Option (comp_hd_t σ3)) (c : List Nat) (maxD : Nat)
    (or3 : Nat → Bool) :
    ((mhd_gtls_comp_init method d einit or1).hd = none →
      (mhd_gtls_comp_init method d einit or1).live = 0) ∧
    (∀ hdl, (mhd_gtls_comp_init method d einit or1).hd = some hdl →
      hdl = comp_hd_t.nullComp ∨
      ∃ s0, hdl = comp_hd_t.deflate s0 ∧ einit d = some s0) ∧
    ((mhd_gtls_compress E2 h2 p maxC or2).ret = CRet.GNUTLS_E_MEMORY_ERROR →
      (mhd_gtls_compress E2 h2 p maxC or2).live = 0 ∧
      (mhd_gtls_compress E2 h2 p maxC or2).compressed = none) ∧
    ((mhd_gtls_decompress E3 h3 c maxD or3).ret = CRet.GNUTLS_E_MEMORY_ERROR →
      (mhd_gtls_decompress E3 h3 c maxD or3).live = 0 ∧
      (mhd_gtls_decompress E3 h3 c maxD or3).plain = none) := by
  refine ⟨?_, ?_, ?_, ?_⟩
  · intro hnone
    cases ho0 : or1 0 with
    | false => simp [mhd_gtls_comp_init, ho0]
    | true =>
      cases method with
      | MHD_GNUTLS_COMP_NULL => simp [mhd_gtls_comp_init, ho0] at hnone
      | MHD_GNUTLS_COMP_DEFLATE =>
        cases ho1 : or1 1 with
        | false => simp [mhd_gtls_comp_init, ho0, ho1]
        | true =>
          cases he : einit d with
          | none => simp [mhd_gtls_comp_init, ho0, ho1, he]
          | some s0 => simp [mhd_gtls_comp_init, ho0, ho1, he] at hnone
  · intro hdl hsome
    cases ho0 : or1 0 with
    | false => simp [mhd_gtls_comp_init, ho0] at hsome
    | true =>
      cases method with
      | MHD_GNUTLS_COMP_NULL =>
        left
        simp [mhd_gtls_comp_init, ho0] at hsome
        exact hsome.symm
      | MHD_GNUTLS_COMP_DEFLATE =>
        cases ho1 : or1 1 with
        | false => simp [mhd_gtls_comp_init, ho0, ho1] at hsome
        | true =>
          cases he : einit d with
          | none => simp [mhd_gtls_comp_init, ho0, ho1, he] at hsome
          | some s0 =>
            right
            simp [mhd_gtls_comp_init, ho0, ho1, he] at hsome
            exact ⟨s0, hsome.symm, rfl⟩
  · intro hm
    match h2 with
    | none => simp [mhd_gtls_compress] at hm
    | some comp_hd_t.nullComp => simp [mhd_gtls_compress] at hm
    | some (comp_hd_t.deflate st) =>
      cases ho : or2 0 with
      | false => simp [mhd_gtls_compress, ho]
      | true =>
        by_cases hst : (E2.step st p (p.length + p.length + 10)).status = ZStatus.ok
        · by_cases hcons : p.drop (E2.step st p (p.length + p.length + 10)).consumed = []
          · by_cases hpost : maxC < (E2.step st p (p.length + p.length + 10)).output.length
            · simp [mhd_gtls_compress, ho, hst, hcons, hpost] at hm
            · simp [mhd_gtls_compress, ho, hst, hcons, hpost] at hm
          · simp [mhd_gtls_compress, ho, hst, hcons] at hm
        · simp [mhd_gtls_compress, ho, hst] at hm
  · intro hm
    by_cases hov : maxD + EXTRA_COMP_SIZE < c.length
    · simp [mhd_gtls_decompress, hov] at hm
    · match h3 with
      | none => simp [mhd_gtls_decompress, hov] at hm
      | some comp_hd_t.nullComp => simp [mhd_gtls_decompress, hov] at hm
      | some (comp_hd_t.deflate st) =>
        rcases hL : inflateLoop E3 maxD or3 (decompFuel c.length maxD) st c
            (c.length + c.length) 0 [] 0 0 with
          ⟨st2, cap⟩ | ⟨st2, cap⟩ | ⟨status, os, cur, buf, st2, cap⟩
        · simp [mhd_gtls_decompress, hov, hL]
        · simp [mhd_gtls_decompress, hov, hL] at hm
        · by_cases hstat : status = ZStatus.ok
          · subst hstat
            by_cases hpost : maxD < os - (os - cur)
            · simp [mhd_gtls_decompress, hov, hL, hpost] at hm
            · simp [mhd_gtls_decompress, hov, hL, hpost] at hm
          · simp [mhd_gtls_decompress, hov, hL, hstat] at hm

theorem C6_allocation_failure_safety_witness :
    ((mhd_gtls_comp_init (σ := Nat) CompressionMethod.MHD_GNUTLS_COMP_DEFLATE true
        (fun _ => some 7) (fun _ => false)).live = 0) ∧
    (comp_hd_t.deflate 7 = comp_hd_t.nullComp ∨
      ∃ s0, comp_hd_t.deflate 7 = comp_hd_t.deflate s0 ∧
        (fun _ : Bool => some 7) true = some s0) ∧
    ((mhd_gtls_compress idEngine (some (comp_hd_t.deflate ())) [1] 10
        (fun _ => false)).live = 0 ∧
      (mhd_gtls_compress idEngine (some (comp_hd_t.deflate ())) [1] 10
        (fun _ => false)).compressed = none) ∧
    ((mhd_gtls_decompress idEngine (some (comp_hd_t.deflate ())) [1] 10
        (fun _ => false)).live = 0 ∧
      (mhd_gtls_decompress idEngine (some (comp_hd_t.deflate ())) [1] 10
        (fun _ => false)).plain = none) :=
  ⟨(C6_allocation_failure_safety CompressionMethod.MHD_GNUTLS_COMP_DEFLATE true
      (fun _ => some (7 : Nat)) (fun _ => false) idEngine (some (comp_hd_t.deflate ()))
      [1] 10 (fun _ => false) idEngine (some (comp_hd_t.deflate ())) [1] 10
      (fun _ => false)).1 (by decide),
    (C6_allocation_failure_safety CompressionMethod.MHD_GNUTLS_COMP_DEFLATE true
      (fun _ => some (7 : Nat)) (fun _ => true) idEngine (some (comp_hd_t.deflate ()))
      [1] 10 (fun _ => false) idEngine (some (comp_hd_t.deflate ())) [1] 10
      (fun _ => false)).2.1 (comp_hd_t.deflate 7) (by decide),
    (C6_allocation_failure_safety CompressionMethod.MHD_GNUTLS_COMP_DEFLATE true
      (fun _ => some (7 : Nat)) (fun _ => false) idEngine (some (comp_hd_t.deflate ()))
      [1] 10 (fun _ => false) idEngine (some (comp_hd_t.deflate ())) [1] 10
      (fun _ => false)).2.2.1 (by decide),
    (C6_allocation_failure_safety CompressionMethod.MHD_GNUTLS_COMP_DEFLATE true
      (fun _ => some (7 : Nat)) (fun _ => false) idEngine (some (comp_hd_t.deflate ()))
      [1] 10 (fun _ => false) idEngine (some (comp_hd_t.deflate ())) [1] 10
      (fun _ => false)).2.2.2 (by decide)⟩

/-- One-step unfolding of the growth loop at positive fuel. -/
theorem inflateLoop_succ {σ : Type} (E : ZEngine σ) (maxD : Nat) (orc : Nat → Bool)
    (fuel : Nat) (st : σ) (input : List Nat) (out_size cur_pos : Nat)
    (buf : List Nat) (aidx cap : Nat) :
    inflateLoop E maxD orc (fuel + 1) st input out_size cur_pos buf aidx cap =
      if orc aidx = false then LoopOut.memFail st cap
      else
        if ((E.step st input (out_size + 512 - cur_pos)).status = ZStatus.bufError ∧
            out_size + 512 -
              (cur_pos + (E.step st input (out_size + 512 - cur_pos)).output.length) = 0 ∧
            out_size + 512 < maxD) ∨
            ((E.step st input (out_size + 512 - cur_pos)).status = ZStatus.ok ∧
              input.drop (E.step st input (out_size + 512 - cur_pos)).consumed ≠ []) then
          inflateLoop E maxD orc fuel (E.step st input (out_size + 512 - cur_pos)).state
            (input.drop (E.step st input (out_size + 512 - cur_pos)).consumed)
            (out_size + 512)
            (cur_pos + (E.step st input (out_size + 512 - cur_pos)).output.length)
            (buf ++ (E.step st input (out_size + 512 - cur_pos)).output) (aidx + 1)
            (Nat.max cap (out_size + 512))
        else
          LoopOut.done (E.step st input (out_size + 512 - cur_pos)).status (out_size + 512)
            (cur_pos + (E.step st input (out_size + 512 - cur_pos)).output.length)
            (buf ++ (E.step st input (out_size + 512 - cur_pos)).output)
            (E.step st input (out_size + 512 - cur_pos)).state
            (Nat.max cap (out_size + 512)) := rfl

/-- For engines that consume all remaining input whenever they report OK,
the loop's peak allocation stays under
`max (entry capacity, first regrow size, max_record_size + 511)`. -/
theorem inflateLoop_cap_bound {σ : Type} (E : ZEngine σ) (maxD : Nat)
    (orc : Nat → Bool)
    (Hok : ∀ s inp avail, (E.step s inp avail).status = ZStatus.ok →
      (E.step s inp avail).consumed = inp.length) :
    ∀ fuel st input os cp buf aidx cap,
      (inflateLoop E maxD orc fuel st input os cp buf aidx cap).capOf ≤
        Nat.max (Nat.max cap (os + 512)) (maxD + 511) := by
  intro fuel
  induction fuel with
  | zero =>
    intro st input os cp buf aidx cap
    simp only [inflateLoop, LoopOut.capOf]
    exact le_trans (Nat.le_max_left cap (os + 512)) (Nat.le_max_left _ _)
  | succ fuel ih =>
    intro st input os cp buf aidx cap
    rw [inflateLoop_succ]
    by_cases horc : orc aidx = false
    · rw [if_pos horc]
      simp only [LoopOut.capOf]
      exact le_trans (Nat.le_max_left cap (os + 512)) (Nat.le_max_left _ _)
    · rw [if_neg horc]
      by_cases hcont : ((E.step st input (os + 512 - cp)).status = ZStatus.bufError ∧
          os + 512 - (cp + (E.step st input (os + 512 - cp)).output.length) = 0 ∧
          os + 512 < maxD) ∨
          ((E.step st input (os + 512 - cp)).status = ZStatus.ok ∧
            input.drop (E.step st input (os + 512 - cp)).consumed ≠ [])
      · rw [if_pos hcont]
        have hb1 : ¬((E.step st input (os + 512 - cp)).status = ZStatus.ok ∧
            input.drop (E.step st input (os + 512 - cp)).consumed ≠ []) := by
          rintro ⟨hok, hne⟩
          exact hne (by rw [Hok st input (os + 512 - cp) hok]; simp)
        have hb := hcont.resolve_right hb1
        have hlt : os + 512 < maxD := hb.2.2
        have hrec := ih (E.step st input (os + 512 - cp)).state
          (input.drop (E.step st input (os + 512 - cp)).consumed) (os + 512)
          (cp + (E.step st input (os + 512 - cp)).output.length)
          (buf ++ (E.step st input (os + 512 - cp)).output) (aidx + 1)
          (Nat.max cap (os + 512))
        refine le_trans hrec (Nat.max_le.mpr ⟨Nat.max_le.mpr ⟨?_, ?_⟩, Nat.le_max_right _ _⟩)
        · exact Nat.le_max_left _ _
        · exact le_trans (by omega) (Nat.le_max_right (Nat.max cap (os + 512)) (maxD + 511))
      · rw [if_neg hcont]
        simp only [LoopOut.capOf]
        exact Nat.le_max_left _ _

/-- C2 counterexample: the allocated capacity does exceed `maxOutputSize`.
With `maxOutputSize = 5` and a four-byte input, the loop's very first
allocation is `2 * 4 + 512 = 520 > 5` (and the call even succeeds), so
"the allocated output capacity never grows past maxOutputSize" is false
as stated. -/
theorem C2_capacity_cex :
    (mhd_gtls_decompress idEngine (some (comp_hd_t.deflate ())) [0, 0, 0, 0] 5
        (fun _ => true)).cap = 520 ∧
    5 < (mhd_gtls_decompress idEngine (some (comp_hd_t.deflate ())) [0, 0, 0, 0] 5
        (fun _ => true)).cap := by
  decide

/-- C2 amended: capacity can overshoot `max_record_size` — the first
allocation is `2 * compressedLength + 512` regardless of the bound, each
regrow can reach `max_record_size + 511`, and the OK-with-unconsumed-input
branch regrows without the capacity guard at all; what the
`out_size < max_record_size` guard does ensure is that for engines that
consume all remaining input whenever they report OK, the allocated
capacity never exceeds
`max (2 * compressedLength + 512, max_record_size + 511)`. -/
theorem C2_capacity_bound {σ : Type} (E : ZEngine σ) (h : Option (comp_hd_t σ))
    (c : List Nat) (maxD : Nat) (orc : Nat → Bool)
    (Hok : ∀ s inp avail, (E.step s inp avail).status = ZStatus.ok →
      (E.step s inp avail).consumed = inp.length) :
    (mhd_gtls_decompress E h c maxD orc).cap ≤
      Nat.max (c.length + c.length + 512) (maxD + 511) := by
  by_cases hov : maxD + EXTRA_COMP_SIZE < c.length
  · simp only [mhd_gtls_decompress, if_pos hov]
    exact Nat.zero_le _
  · match h with
    | none =>
      simp [mhd_gtls_decompress, hov]
    | some comp_hd_t.nullComp =>
      simp [mhd_gtls_decompress, hov]
    | some (comp_hd_t.deflate st) =>
      have hb := inflateLoop_cap_bound E maxD orc Hok (decompFuel c.length maxD) st c
        (c.length + c.length) 0 [] 0 0
      have hb2 := le_trans hb (Nat.max_le.mpr
        ⟨Nat.max_le.mpr ⟨Nat.zero_le _, Nat.le_max_left _ _⟩, Nat.le_max_right _ _⟩)
      clear hb
      rename' hb2 => hb
      rcases hL : inflateLoop E maxD orc (decompFuel c.length maxD) st c
          (c.length + c.length) 0 [] 0 0 with
        ⟨st2, cap⟩ | ⟨st2, cap⟩ | ⟨status, os, cur, buf, st2, cap⟩
      · rw [hL] at hb
        simp only [LoopOut.capOf] at hb
        simp only [mhd_gtls_decompress, if_neg hov, hL]
        exact hb
      · rw [hL] at hb
        simp only [LoopOut.capOf] at hb
        simp only [mhd_gtls_decompress, if_neg hov, hL]
        exact hb
      · rw [hL] at hb
        simp only [LoopOut.capOf] at hb
        by_cases hstat : status = ZStatus.ok
        · subst hstat
          by_cases hpost : maxD < os - (os - cur)
          · simp only [mhd_gtls_decompress, if_neg hov, hL]
            simp [hpost]
            exact le_max_iff.mp hb
          · simp only [mhd_gtls_decompress, if_neg hov, hL]
            simp [hpost]
            exact le_max_iff.mp hb
        · simp only [mhd_gtls_decompress, if_neg hov, hL]
          simp [hstat]
          exact le_max_iff.mp hb

theorem C2_capacity_bound_witness :
    (mhd_gtls_decompress idEngine (some (comp_hd_t.deflate ())) [0, 0, 0, 0] 5
        (fun _ => true)).cap ≤ Nat.max (4 + 4 + 512) (5 + 511) :=
  C2_capacity_bound idEngine (some (comp_hd_t.deflate ())) [0, 0, 0, 0] 5
    (fun _ => true) (by
      intro s inp avail hok
      by_cases hle : inp.length ≤ avail
      · simp [idEngine, hle]
      · simp [idEngine, hle] at hok)

/-- Fuel adequacy for the growth loop: if the engine consumes at least one
input byte whenever it reports OK on a nonempty input with output space
available, the loop completes before
`avail_in * (max_record_size + 513) + (max_record_size - out_size)` fuel
is spent (each continued iteration strictly decreases that measure). -/
theorem inflateLoop_no_fuelOut {σ : Type} (E : ZEngine σ) (maxD : Nat)
    (orc : Nat → Bool)
    (Hprog : ∀ s inp avail, inp ≠ [] → 0 < avail →
      (E.step s inp avail).status = ZStatus.ok → 1 ≤ (E.step s inp avail).consumed) :
    ∀ fuel st input os cp buf aidx cap, cp ≤ os →
      input.length * (maxD + 513) + (maxD - os) < fuel →
      ∀ st2 cap2,
        inflateLoop E maxD orc fuel st input os cp buf aidx cap ≠
          LoopOut.fuelOut st2 cap2 := by
  intro fuel
  induction fuel with
  | zero =>
    intro st input os cp buf aidx cap hcp hfuel
    omega
  | succ fuel ih =>
    intro st input os cp buf aidx cap hcp hfuel st2 cap2
    rw [inflateLoop_succ]
    by_cases horc : orc aidx = false
    · rw [if_pos horc]
      simp
    · rw [if_neg horc]
      by_cases hcont : ((E.step st input (os + 512 - cp)).status = ZStatus.bufError ∧
          os + 512 - (cp + (E.step st input (os + 512 - cp)).output.length) = 0 ∧
          os + 512 < maxD) ∨
          ((E.step st input (os + 512 - cp)).status = ZStatus.ok ∧
            input.drop (E.step st input (os + 512 - cp)).consumed ≠ [])
      · rw [if_pos hcont]
        have hout := E.output_le st input (os + 512 - cp)
        have hconsle := E.consumed_le st input (os + 512 - cp)
        have hlen2 : (input.drop (E.step st input (os + 512 - cp)).consumed).length =
            input.length - (E.step st input (os + 512 - cp)).consumed := by
          simp [List.length_drop]
        refine ih (E.step st input (os + 512 - cp)).state
          (input.drop (E.step st input (os + 512 - cp)).consumed) (os + 512)
          (cp + (E.step st input (os + 512 - cp)).output.length)
          (buf ++ (E.step st input (os + 512 - cp)).output) (aidx + 1)
          (Nat.max cap (os + 512)) (by omega) ?_ st2 cap2
        rcases hcont with ⟨hbe, hfill, hlt⟩ | ⟨hok, hne⟩
        · have hmul : (input.drop (E.step st input (os + 512 - cp)).consumed).length *
              (maxD + 513) ≤ input.length * (maxD + 513) :=
            Nat.mul_le_mul_right _ (by omega)
          omega
        · have hinne : input ≠ [] := by
            intro hnil
            subst hnil
            simp at hne
          have hpos : 0 < input.length := List.length_pos.mpr hinne
          have hcons1 : 1 ≤ (E.step st input (os + 512 - cp)).consumed :=
            Hprog st input (os + 512 - cp) hinne (by omega) hok
          have hmul : (input.drop (E.step st input (os + 512 - cp)).consumed).length *
              (maxD + 513) ≤ (input.length - 1) * (maxD + 513) :=
            Nat.mul_le_mul_right _ (by omega)
          have hexp : (input.length - 1 + 1) * (maxD + 513) =
              (input.length - 1) * (maxD + 513) + (maxD + 513) := Nat.succ_mul _ _
          have hcancel : input.length - 1 + 1 = input.length := Nat.sub_add_cancel hpos
          rw [hcancel] at hexp
          omega
      · rw [if_neg hcont]
        simp

/-- C9: the decompress growth loop terminates — provided the engine makes
input progress whenever it reports OK (as a deflate-family decoder does),
the built-in fuel, which strictly dominates the loop's decreasing measure,
is never exhausted, so decompress runs to completion or failure in
finitely many iterations. -/
theorem C9_loop_termination {σ : Type} (E : ZEngine σ) (h : Option (comp_hd_t σ))
    (c : List Nat) (maxD : Nat) (orc : Nat → Bool)
    (Hprog : ∀ s inp avail, inp ≠ [] → 0 < avail →
      (E.step s inp avail).status = ZStatus.ok → 1 ≤ (E.step s inp avail).consumed) :
    (mhd_gtls_decompress E h c maxD orc).ret ≠ CRet.modelFuelExhausted := by
  by_cases hov : maxD + EXTRA_COMP_SIZE < c.length
  · simp [mhd_gtls_decompress, hov]
  · match h with
    | none => simp [mhd_gtls_decompress, hov]
    | some comp_hd_t.nullComp => simp [mhd_gtls_decompress, hov]
    | some (comp_hd_t.deflate st) =>
      rcases hL : inflateLoop E maxD orc (decompFuel c.length maxD) st c
          (c.length + c.length) 0 [] 0 0 with
        ⟨st2, cap⟩ | ⟨st2, cap⟩ | ⟨status, os, cur, buf, st2, cap⟩
      · simp [mhd_gtls_decompress, hov, hL]
      · exact absurd hL (inflateLoop_no_fuelOut E maxD orc Hprog
          (decompFuel c.length maxD) st c (c.length + c.length) 0 [] 0 0
          (Nat.zero_le _) (by unfold decompFuel; omega) st2 cap)
      · by_cases hstat : status = ZStatus.ok
        · subst hstat
          by_cases hpost : maxD < os - (os - cur)
          · simp [mhd_gtls_decompress, hov, hL, hpost]
          · simp [mhd_gtls_decompress, hov, hL, hpost]
        · simp [mhd_gtls_decompress, hov, hL, hstat]

theorem C9_loop_termination_witness :
    (mhd_gtls_decompress idEngine (some (comp_hd_t.deflate ())) [3, 4] 10
      (fun _ => true)).ret ≠ CRet.modelFuelExhausted :=
  C9_loop_termination idEngine (some (comp_hd_t.deflate ())) [3, 4] 10 (fun _ => true)
    (by
      intro s inp avail hne hpos hok
      by_cases hle : inp.length ≤ avail
      · have : 0 < inp.length := List.length_pos.mpr hne
        simp [idEngine, hle]
        omega
      · simp [idEngine, hle] at hok)

/-- Invariant run of the growth loop against the `schedDecoder` engine:
starting with `k` plaintext bytes already emitted (and the input consumed
according to the schedule `g`), the loop finishes with status OK having
written exactly the plaintext `P`. -/
theorem schedLoop_spec (P c : List Nat) (g : Nat → Nat) (maxD : Nat)
    (Hmono : ∀ a b, a ≤ b → g a ≤ g b)
    (Hmid : ∀ k, k < P.length → g k < c.length) :
    ∀ fuel k os aidx cap, k ≤ P.length → k ≤ os →
      P.length < fuel + k →
      (k = P.length → g k < c.length) →
      ∃ st2 os2 cap2,
        inflateLoop (schedDecoder P c g) maxD (fun _ => true) fuel (g k, k)
          (c.drop (g k)) os k (P.take k) aidx cap =
          LoopOut.done ZStatus.ok os2 P.length P st2 cap2 ∧ P.length ≤ os2 := by
  intro fuel
  induction fuel with
  | zero =>
    intro k os aidx cap hk hkos hfuel hedge
    omega
  | succ fuel ih =>
    intro k os aidx cap hk hkos hfuel hedge
    rw [inflateLoop_succ]
    rw [if_neg (by simp)]
    by_cases hkP : k = P.length
    · subst hkP
      have hg : g P.length < c.length := hedge rfl
      have hout : ((schedDecoder P c g).step (g P.length, P.length)
          (c.drop (g P.length)) (os + 512 - P.length)).output = [] := by
        show (P.drop P.length).take (os + 512 - P.length) = []
        simp
      have hcons : ((schedDecoder P c g).step (g P.length, P.length)
          (c.drop (g P.length)) (os + 512 - P.length)).consumed =
          c.length - g P.length := by
        show min (c.drop (g P.length)).length
            ((if P.length + ((P.drop P.length).take (os + 512 - P.length)).length =
                P.length then c.length
              else g (P.length + ((P.drop P.length).take (os + 512 - P.length)).length)) -
              g P.length) = c.length - g P.length
        simp
      have hstat : ((schedDecoder P c g).step (g P.length, P.length)
          (c.drop (g P.length)) (os + 512 - P.length)).status = ZStatus.ok := by
        show (if ((P.drop P.length).take (os + 512 - P.length)).length = 0 ∧
            min (c.drop (g P.length)).length
              ((if P.length + ((P.drop P.length).take (os + 512 - P.length)).length =
                  P.length then c.length
                else g (P.length +
                  ((P.drop P.length).take (os + 512 - P.length)).length)) -
                g P.length) = 0
          then ZStatus.bufError else ZStatus.ok) = ZStatus.ok
        rw [if_neg]
        rintro ⟨-, hz⟩
        simp at hz
        omega
      have hstate : ((schedDecoder P c g).step (g P.length, P.length)
          (c.drop (g P.length)) (os + 512 - P.length)).state =
          (c.length, P.length) := by
        show (g P.length + min (c.drop (g P.length)).length
            ((if P.length + ((P.drop P.length).take (os + 512 - P.length)).length =
                P.length then c.length
              else g (P.length + ((P.drop P.length).take (os + 512 - P.length)).length)) -
              g P.length),
            P.length + ((P.drop P.length).take (os + 512 - P.length)).length) =
          (c.length, P.length)
        simp
        omega
      have hdd : (c.drop (g P.length)).drop (c.length - g P.length) = [] := by
        rw [List.drop_drop]
        have harg : g P.length + (c.length - g P.length) = c.length := by omega
        rw [harg, List.drop_length]
      rw [hstat, hcons, hout, hstate, hdd]
      rw [if_neg (by
        rintro (⟨hb, -, -⟩ | ⟨-, hne⟩)
        · exact ZStatus.noConfusion hb
        · exact hne rfl)]
      refine ⟨(c.length, P.length), os + 512, Nat.max cap (os + 512), ?_, by omega⟩
      simp
    · have hklt : k < P.length := by omega
      have hgk : g k < c.length := Hmid k hklt
      have houtlen : ((P.drop k).take (os + 512 - k)).length =
          Nat.min (os + 512 - k) (P.length - k) := by
        simp
      have houteq : ((schedDecoder P c g).step (g k, k) (c.drop (g k))
          (os + 512 - k)).output = (P.drop k).take (os + 512 - k) := rfl
      by_cases hfit : P.length - k ≤ os + 512 - k
      · -- the remaining plaintext fits: the decoder finishes this call
        have houtlen1 : ((P.drop k).take (os + 512 - k)).length = P.length - k := by
          rw [houtlen]
          exact Nat.min_eq_right hfit
        have hk2 : k + ((P.drop k).take (os + 512 - k)).length = P.length := by
          rw [houtlen1]
          omega
        have hcons : ((schedDecoder P c g).step (g k, k) (c.drop (g k))
            (os + 512 - k)).consumed = c.length - g k := by
          show min (c.drop (g k)).length
              ((if k + ((P.drop k).take (os + 512 - k)).length = P.length then c.length
                else g (k + ((P.drop k).take (os + 512 - k)).length)) - g k) =
            c.length - g k
          rw [hk2, if_pos rfl, List.length_drop, Nat.min_self]
        have hstat : ((schedDecoder P c g).step (g k, k) (c.drop (g k))
            (os + 512 - k)).status = ZStatus.ok := by
          show (if ((P.drop k).take (os + 512 - k)).length = 0 ∧
              min (c.drop (g k)).length
                ((if k + ((P.drop k).take (os + 512 - k)).length = P.length then c.length
                  else g (k + ((P.drop k).take (os + 512 - k)).length)) - g k) = 0
            then ZStatus.bufError else ZStatus.ok) = ZStatus.ok
          rw [if_neg]
          rintro ⟨h1, -⟩
          rw [houtlen1] at h1
          omega
        have hstate : ((schedDecoder P c g).step (g k, k) (c.drop (g k))
            (os + 512 - k)).state = (c.length, P.length) := by
          show (g k + min (c.drop (g k)).length
              ((if k + ((P.drop k).take (os + 512 - k)).length = P.length then c.length
                else g (k + ((P.drop k).take (os + 512 - k)).length)) - g k),
              k + ((P.drop k).take (os + 512 - k)).length) = (c.length, P.length)
          rw [hk2, if_pos rfl, List.length_drop, Nat.min_self,
            Nat.add_sub_cancel' (Nat.le_of_lt hgk)]
        have hbufP : P.take k ++ (P.drop k).take (os + 512 - k) = P := by
          have h1 : (P.drop k).take (os + 512 - k) = P.drop k :=
            List.take_of_length_le (by simpa using hfit)
          rw [h1, List.take_append_drop]
        have hdd : (c.drop (g k)).drop (c.length - g k) = [] := by
          rw [List.drop_drop]
          have harg : g k + (c.length - g k) = c.length := by omega
          rw [harg, List.drop_length]
        rw [hstat, hcons, houteq, hstate, hdd, hk2, hbufP]
        rw [if_neg (by
          rintro (⟨hb, -, -⟩ | ⟨-, hne⟩)
          · exact ZStatus.noConfusion hb
          · exact hne rfl)]
        exact ⟨(c.length, P.length), os + 512, Nat.max cap (os + 512), rfl, by omega⟩
      · -- output space fills first: the loop continues with more capacity
        have houtlen2 : ((P.drop k).take (os + 512 - k)).length = os + 512 - k := by
          rw [houtlen]
          exact Nat.min_eq_left (by omega)
        have hk2 : k + ((P.drop k).take (os + 512 - k)).length = os + 512 := by
          rw [houtlen2]
          omega
        have hk2lt : os + 512 < P.length := by omega
        have hg2 : g (os + 512) < c.length := Hmid _ hk2lt
        have hjle : g k ≤ g (os + 512) := Hmono k (os + 512) (by omega)
        have hcons : ((schedDecoder P c g).step (g k, k) (c.drop (g k))
            (os + 512 - k)).consumed = g (os + 512) - g k := by
          show min (c.drop (g k)).length
              ((if k + ((P.drop k).take (os + 512 - k)).length = P.length then c.length
                else g (k + ((P.drop k).take (os + 512 - k)).length)) - g k) =
            g (os + 512) - g k
          rw [hk2, if_neg (by omega), List.length_drop]
          exact Nat.min_eq_right (by omega)
        have hstat : ((schedDecoder P c g).step (g k, k) (c.drop (g k))
            (os + 512 - k)).status = ZStatus.ok := by
          show (if ((P.drop k).take (os + 512 - k)).length = 0 ∧
              min (c.drop (g k)).length
                ((if k + ((P.drop k).take (os + 512 - k)).length = P.length then c.length
                  else g (k + ((P.drop k).take (os + 512 - k)).length)) - g k) = 0
            then ZStatus.bufError else ZStatus.ok) = ZStatus.ok
          rw [if_neg]
          rintro ⟨h1, -⟩
          rw [houtlen2] at h1
          omega
        have hstate : ((schedDecoder P c g).step (g k, k) (c.drop (g k))
            (os + 512 - k)).state = (g (os + 512), os + 512) := by
          show (g k + min (c.drop (g k)).length
              ((if k + ((P.drop k).take (os + 512 - k)).length = P.length then c.length
                else g (k + ((P.drop k).take (os + 512 - k)).length)) - g k),
              k + ((P.drop k).take (os + 512 - k)).length) = (g (os + 512), os + 512)
          rw [hk2, if_neg (by omega), List.length_drop,
            Nat.min_eq_right (by omega), Nat.add_sub_cancel' hjle]
        have hinput2 : (c.drop (g k)).drop (g (os + 512) - g k) =
            c.drop (g (os + 512)) := by
          rw [List.drop_drop]
          congr 1
          omega
        have hinne : c.drop (g (os + 512)) ≠ [] := by
          have hlen : 0 < (c.drop (g (os + 512))).length := by
            simp only [List.length_drop]
            omega
          exact List.length_pos.mp hlen
        have hbufP : P.take k ++ (P.drop k).take (os + 512 - k) = P.take (os + 512) := by
          rw [← List.take_add]
          congr 1
          omega
        have hcond : (((schedDecoder P c g).step (g k, k) (c.drop (g k))
              (os + 512 - k)).status = ZStatus.bufError ∧
            os + 512 - (k + ((schedDecoder P c g).step (g k, k) (c.drop (g k))
              (os + 512 - k)).output.length) = 0 ∧
            os + 512 < maxD) ∨
            (((schedDecoder P c g).step (g k, k) (c.drop (g k))
              (os + 512 - k)).status = ZStatus.ok ∧
              (c.drop (g k)).drop ((schedDecoder P c g).step (g k, k) (c.drop (g k))
                (os + 512 - k)).consumed ≠ []) := by
          refine Or.inr ⟨hstat, ?_⟩
          rw [hcons, hinput2]
          exact hinne
        rw [if_pos hcond]
        rw [hstate, hcons, hinput2, houteq, hk2, hbufP]
        exact ih (os + 512) (os + 512) (aidx + 1) (Nat.max cap (os + 512))
          (by omega) le_rfl (by omega) (fun hh => absurd hh (by omega))

/-- C4: round-trip — if compress succeeds on a plaintext `P` with
`P.length ≤ maxOutputSize`, producing the record `c`, then decompressing
`c` with the same maximum through a fresh deflate-family decoder of `c`
(any streaming decoder of `c` back to `P` whose input consumption follows
a monotone schedule, the engine being external to this file) returns
exactly `P`. -/
theorem C4_roundtrip {σ : Type} (Ec : ZEngine σ) (hC : Option (comp_hd_t σ))
    (P c : List Nat) (maxS : Nat) (g : Nat → Nat) (orc : Nat → Bool)
    (Hg0 : g 0 = 0)
    (Hmono : ∀ a b, a ≤ b → g a ≤ g b)
    (Hmid : ∀ k, k < P.length → g k < c.length)
    (Hc : c ≠ [])
    (HP : P.length ≤ maxS)
    (Hcomp : (mhd_gtls_compress Ec hC P maxS orc).compressed = some c) :
    (mhd_gtls_decompress (schedDecoder P c g) (some (comp_hd_t.deflate (0, 0))) c
        maxS (fun _ => true)).ret = CRet.size P.length ∧
    (mhd_gtls_decompress (schedDecoder P c g) (some (comp_hd_t.deflate (0, 0))) c
        maxS (fun _ => true)).plain = some P := by
  have hcle : c.length ≤ maxS := (compress_compressed_spec Ec hC P maxS orc c Hcomp).1
  have hov : ¬(maxS + EXTRA_COMP_SIZE < c.length) := by
    unfold EXTRA_COMP_SIZE
    omega
  have hcpos : 0 < c.length := List.length_pos.mpr Hc
  obtain ⟨st2, os2, cap2, hL, hos2⟩ := schedLoop_spec P c g maxS Hmono Hmid
    (decompFuel c.length maxS) 0 (c.length + c.length) 0 0 (Nat.zero_le _)
    (Nat.zero_le _) (by unfold decompFuel; omega)
    (fun h0 => by rw [Hg0]; omega)
  rw [Hg0] at hL
  simp only [List.drop_zero, List.take_zero] at hL
  have hps : os2 - (os2 - P.length) = P.length := by omega
  constructor
  · unfold mhd_gtls_decompress
    rw [if_neg hov]
    simp only [hL]
    rw [if_neg (show ¬(ZStatus.ok ≠ ZStatus.ok) by simp), hps,
      if_neg (Nat.not_lt.mpr HP)]
  · unfold mhd_gtls_decompress
    rw [if_neg hov]
    simp only [hL]
    rw [if_neg (show ¬(ZStatus.ok ≠ ZStatus.ok) by simp), hps,
      if_neg (Nat.not_lt.mpr HP)]

theorem C4_roundtrip_witness :
    (mhd_gtls_decompress (schedDecoder [7] [7] (fun _ => 0))
        (some (comp_hd_t.deflate (0, 0))) [7] 10 (fun _ => true)).ret =
      CRet.size 1 ∧
    (mhd_gtls_decompress (schedDecoder [7] [7] (fun _ => 0))
        (some (comp_hd_t.deflate (0, 0))) [7] 10 (fun _ => true)).plain =
      some [7] :=
  C4_roundtrip idEngine (some (comp_hd_t.deflate ())) [7] [7] 10 (fun _ => 0)
    (fun _ => true) rfl (fun a b _ => Nat.le_refl 0) (fun k _ => Nat.zero_lt_one)
    (by decide) (by decide) (by decide)
